import Mathlib

/-!
Verification development for the keyword-triggered speech quickstart
(`rstt/keyword-node/src/index.js`).  The definitions below are a shallow
embedding of that file: transcripts are lists of characters, the per-connection
booleans of `listenForKeyword` become a record, each event handler becomes a
pure state-transition function, and the network side effects of the RST
interrupt utility are recorded as explicit effect values.
-/

namespace RSTT

/-! ## Keyword matching

The final-transcript handler tests
`new RegExp("\\b" + KEYWORD + "\\b", "i").test(transcript)` — a
case-insensitive whole-word occurrence of the configured keyword.  JS `\b`
(non-unicode) separates word characters `[A-Za-z0-9_]` from the rest. -/

/-- JS word character for `\b`: `[A-Za-z0-9_]` (ASCII only in non-unicode regexes). -/
def isWordChar (c : Char) : Bool :=
  (('A' ≤ c && c ≤ 'Z') || ('a' ≤ c && c ≤ 'z') || ('0' ≤ c && c ≤ '9') || c == '_')

/-- ASCII lower-casing, as performed by the `i` regex flag on ASCII keywords. -/
def lowerList (t : List Char) : List Char := t.map Char.toLower

/-- `wordAt kw t i` : the keyword `kw` occurs in `t` at index `i`,
case-insensitively, with a `\b` boundary on both sides (for a keyword made of
word characters: the neighbouring characters, when they exist, are non-word). -/
def wordAt (kw t : List Char) (i : ℕ) : Bool :=
  (((lowerList t).drop i).take kw.length == lowerList kw)
  && ((t.take i).getLast?.all fun c => !isWordChar c)
  && ((t.drop (i + kw.length)).head?.all fun c => !isWordChar c)

/-- Embedding of `new RegExp("\\b"+KEYWORD+"\\b", "i").test(t)` for a keyword
consisting of word characters. -/
def hasKeywordCI (kw t : List Char) : Bool :=
  (List.range (t.length + 1)).any (wordAt kw t)

/-- The spec-side predicate, written from the spec's words: the keyword occurs
in the text as a case-insensitive whole-word match, i.e. the text decomposes
as `pre ++ mid ++ post` where `mid` equals the keyword up to case, `pre` is
empty or ends in a non-word character, and `post` is empty or starts with
one. -/
def wholeWordMatch (kw t : List Char) : Prop :=
  ∃ pre mid post, t = pre ++ mid ++ post
    ∧ lowerList mid = lowerList kw
    ∧ (pre = [] ∨ ∃ c pre2, pre = pre2 ++ [c] ∧ isWordChar c = false)
    ∧ (post = [] ∨ ∃ c post2, post = c :: post2 ∧ isWordChar c = false)

/-! ## The keyword-trigger state machine

Per-connection booleans of `listenForKeyword` plus the module-global
`isSpeaking` flag. -/

/-- The action dispatched by the final-transcript handler. -/
inductive Action where
  | none
  | speak
  | interrupt
deriving DecidableEq

/-- The mutable booleans the `final` / `partial` handlers read and write:
`hasFinalTranscript`, `keywordDetected`, `consecutiveKeywordDetection`
(per connection) and the module-global `isSpeaking`. -/
structure KWState where
  hasFinalTranscript : Bool
  keywordDetected : Bool
  consecutiveKeywordDetection : Bool
  isSpeaking : Bool
deriving DecidableEq

/-- Fresh state at the top of `listenForKeyword`, with the module-global
`isSpeaking` carried over. -/
def initialKWState (speaking : Bool) : KWState :=
  ⟨false, false, false, speaking⟩

/-- Embedding of the `final` event handler (source lines 568–692), on the
already-trimmed transcript.  In source order: if `keywordDetected`, set
`consecutiveKeywordDetection`; set `hasFinalTranscript := true`; clear
`keywordDetected`; if the (nonempty) transcript matches `\bKEYWORD\b/i`,
either interrupt (when `isSpeaking`; `interruptSpeech` synchronously clears
`isSpeaking`) or start speaking (`speakText` synchronously sets `isSpeaking`),
then set `keywordDetected := true` and clear `consecutiveKeywordDetection`;
otherwise clear `consecutiveKeywordDetection`.  The action records which of
`interruptSpeech` / `speakText` was invoked. -/
def onFinalEvent (kw : List Char) (s : KWState) (t : List Char) : KWState × Action :=
  let consec := if s.keywordDetected then true else s.consecutiveKeywordDetection
  let s1 : KWState :=
    { s with consecutiveKeywordDetection := consec,
             hasFinalTranscript := true,
             keywordDetected := false }
  if !(t == []) && hasKeywordCI kw t then
    if s1.isSpeaking then
      ({ s1 with isSpeaking := false, keywordDetected := true,
                 consecutiveKeywordDetection := false }, Action.interrupt)
    else
      ({ s1 with isSpeaking := true, keywordDetected := true,
                 consecutiveKeywordDetection := false }, Action.speak)
  else
    ({ s1 with consecutiveKeywordDetection := false }, Action.none)

/-- Embedding of the `partial` event handler (source lines 526–557): when a
final transcript has been printed, the cursor bookkeeping clears
`keywordDetected`, `hasFinalTranscript` and `consecutiveKeywordDetection`;
otherwise nothing observable changes. -/
def onPartialEvent (s : KWState) : KWState :=
  if s.hasFinalTranscript then
    { s with keywordDetected := false, hasFinalTranscript := false,
             consecutiveKeywordDetection := false }
  else s

/-- Run the final handler over a run of consecutive final transcripts (no
intervening partial), collecting every action. -/
def runFinals (kw : List Char) (s : KWState) : List (List Char) → KWState × List Action
  | [] => (s, [])
  | t :: ts =>
    let p := onFinalEvent kw s t
    let q := runFinals kw p.1 ts
    (q.1, p.2 :: q.2)

/-- The actions actually dispatched (the non-`none` ones) over a run of
consecutive finals. -/
def dispatched (kw : List Char) (s : KWState) (ts : List (List Char)) : List Action :=
  (runFinals kw s ts).2.filter (fun a => decide (a ≠ Action.none))

/-! ## The transcript session: idle-timeout timer and `speech_ended`

`listenForKeyword` starts `setTimeout(() => { timeoutExceeded = true; },
SSE_TIMEOUT_MS)` and handles `speech_ended` with
`if (timeoutExceeded || Date.now() - startTime >= SSE_TIMEOUT_MS) reconnect()`. -/

/-- Per-connection session state: the keyword-trigger booleans plus the
`timeoutExceeded` flag set by the idle-timeout timer. -/
structure ConnState where
  kws : KWState
  timeoutExceeded : Bool
deriving DecidableEq

/-- Observable teardown effect: `reconnect()` clears the timer, closes the
`EventSource` and schedules a fresh `listenForKeyword`. -/
inductive SessEffect where
  | closeAndReconnect
deriving DecidableEq

/-- The events a live connection reacts to. -/
inductive SSEEvent where
  | evPartial (t : List Char)
  | evFinal (t : List Char)
  | evSpeechEnded
deriving DecidableEq

/-- Embedding of the timeout timer callback (source lines 511–513): it only
sets the `timeoutExceeded` flag — no action, no teardown. -/
def onTimerFired (s : ConnState) : ConnState × Action × List SessEffect :=
  ({ s with timeoutExceeded := true }, Action.none, [])

/-- Embedding of the `speech_ended` handler (source lines 560–565), given the
elapsed connected time at arrival: reconnect exactly when the timer fired or
the elapsed time has reached the configured timeout. -/
def onSpeechEnded (timeoutMs : ℕ) (s : ConnState) (elapsed : ℕ) :
    ConnState × Action × List SessEffect :=
  if s.timeoutExceeded || decide (timeoutMs ≤ elapsed) then
    (s, Action.none, [SessEffect.closeAndReconnect])
  else (s, Action.none, [])

/-- Event dispatch of a live connection: `partial` and `final` go to the
keyword machinery, `speech_ended` only to the reconnect check. -/
def sessionStep (kw : List Char) (timeoutMs : ℕ) (s : ConnState) (elapsed : ℕ) :
    SSEEvent → ConnState × Action × List SessEffect
  | SSEEvent.evPartial _ => ({ s with kws := onPartialEvent s.kws }, Action.none, [])
  | SSEEvent.evFinal t =>
    let p := onFinalEvent kw s.kws t
    ({ s with kws := p.1 }, p.2, [])
  | SSEEvent.evSpeechEnded => onSpeechEnded timeoutMs s elapsed

/-! ## Reconnect backoff policy

Embedding of the `reconnect` helper (source lines 722–777).  Delays are
rationals (the code computes with JS floats on small integral values;
`Math.pow(1.5, k)` is `(3/2)^k` exactly), the jitter `Math.random() * 1000`
becomes an explicit parameter. -/

/-- Configuration: `RESTART_DELAY_MS`, `BASE_RECONNECT_DELAY_MS`,
`MAX_RECONNECT_DELAY_MS`, `MAX_RECONNECT_ATTEMPTS`. -/
structure BackoffConfig where
  restartDelay : ℚ
  baseDelay : ℚ
  maxDelay : ℚ
  maxAttempts : ℕ
deriving DecidableEq

/-- Result of one `reconnect` call: the computed delay, the updated
`reconnectAttempt`, and whether the fatal give-up branch was reached. -/
structure ReconnectResult where
  delay : ℚ
  newAttempt : ℕ
  fatal : Bool
deriving DecidableEq

/-- Embedding of the `reconnect` computation, in source order: on error, reset
the attempt counter when the connection lasted more than 60 000 ms, increment
it, overwrite the flat delay with capped exponential backoff plus jitter when
the incremented attempt exceeds 1, and flag the fatal branch when the attempt
count exceeds a positive `maxAttempts`; otherwise flat delay and counter
reset. -/
def reconnectCalc (cfg : BackoffConfig) (attempt : ℕ) (isError : Bool)
    (connectedMs : ℕ) (jitter : ℚ) : ReconnectResult :=
  if isError then
    let a0 := if 60000 < connectedMs then 0 else attempt
    let a1 := a0 + 1
    let delay :=
      if 1 < a1 then min (cfg.baseDelay * (3 / 2) ^ (a1 - 1)) cfg.maxDelay + jitter
      else cfg.restartDelay
    ⟨delay, a1, decide (0 < cfg.maxAttempts) && decide (cfg.maxAttempts < a1)⟩
  else
    ⟨cfg.restartDelay, 0, false⟩

/-- What follows the computation: `process.exit(1)` on the fatal branch,
otherwise `setTimeout(() => listenForKeyword(...), delay)`. -/
inductive ReconnectNext where
  | exitProcess (code : ℕ)
  | scheduleRetry (delay : ℚ) (attempt : ℕ)
deriving DecidableEq

/-- Dispatch on the fatal flag, as the source does after computing the delay. -/
def reconnectNext (r : ReconnectResult) : ReconnectNext :=
  if r.fatal then ReconnectNext.exitProcess 1
  else ReconnectNext.scheduleRetry r.delay r.newAttempt

/-- Iterate `n` consecutive error reconnects (each after a short connection and
with zero jitter) from a given attempt count; `none` means the process exited. -/
def errorRun (cfg : BackoffConfig) : ℕ → ℕ → Option ℕ
  | 0, a => some a
  | Nat.succ n, a =>
    match reconnectNext (reconnectCalc cfg a true 0 0) with
    | ReconnectNext.exitProcess _ => none
    | ReconnectNext.scheduleRetry _ a1 => errorRun cfg n a1

/-! ## The RST interrupt utility

`RSTInterruptUtility.sendRSTPacket` (source lines 63–252) creates a **new**
`net.Socket`, connects it to the API host, hand-frames an HTTP request on it
(TLS-wrapped), and 100 ms later calls `resetAndDestroy()` on that same new
socket.  `RSTInterruptUtility.interruptSpeech` (lines 260–328) invokes it
against `POST /v1/workstations/{id}/audio/speak` with body
`{"text":"interrupt"}`, plus a backup attempt 200 ms later. -/

/-- Host every request of the program targets. -/
def apiHost : String := "api.agentstation.ai"

/-- The playback endpoint path for a workstation. -/
def speakPathOf (wsId : String) : String :=
  "/v1/workstations/" ++ wsId ++ "/audio/speak"

/-- The hand-framed body sent by the interrupt utility. -/
def interruptBody : String := "\x7b\"text\":\"interrupt\"\x7d"

/-- Observable network footprint of one `sendRSTPacket` call: the socket it
creates, the request it frames on that socket, and the socket its
`resetAndDestroy()` targets. -/
structure RSTEffect where
  createdSocket : ℕ
  host : String
  port : ℕ
  path : String
  method : String
  body : String
  requestWritten : Bool
  resetTarget : ℕ
deriving DecidableEq

/-- A socket id not held by any existing connection (`new net.Socket()` never
reuses a live handle). -/
def freshSocket (existing : List ℕ) : ℕ :=
  existing.foldr max 0 + 1

/-- Embedding of `sendRSTPacket`: the request is written on the newly created
socket and the reset targets that very same new socket. -/
def sendRSTPacketEffect (fresh : ℕ) (h : String) (p : ℕ) (pth m b : String) : RSTEffect :=
  { createdSocket := fresh, host := h, port := p, path := pth, method := m,
    body := b, requestWritten := true, resetTarget := fresh }

/-- Embedding of `RSTInterruptUtility.interruptSpeech`'s (first) RST attempt,
given the socket ids of all currently existing connections — in particular the
one carrying the active playback request. -/
def interruptSpeechRST (existing : List ℕ) (wsId : String) : RSTEffect :=
  sendRSTPacketEffect (freshSocket existing) apiHost 443 (speakPathOf wsId)
    ("POST") interruptBody

/-! ## The top-level `interruptSpeech` function (source lines 332–347) -/

/-- Ordered observable steps of one `interruptSpeech()` call. -/
inductive IEffect where
  | setSpeakingFalse
  | sendRSTNow
  | scheduleBackupRST
deriving DecidableEq

/-- Embedding of `interruptSpeech()`: read `isSpeaking` into `wasSpeaking`,
clear `isSpeaking` unconditionally and synchronously, then — only when it was
speaking — fire the RST utility (immediate packet plus a 200 ms backup) without
awaiting anything, and return `wasSpeaking`.  Result: (return value, new
`isSpeaking`, ordered effects). -/
def interruptSpeechCall (speaking0 : Bool) : Bool × Bool × List IEffect :=
  (speaking0, false,
    IEffect.setSpeakingFalse ::
      (if speaking0 then [IEffect.sendRSTNow, IEffect.scheduleBackupRST] else []))

/-! ## The playback request: `makeInterruptibleRequest` and `speakText` -/

/-- Outcome of the `req.on("error")` handler (source lines 395–407). -/
inductive ReqOutcome where
  | resolvedInterrupted
  | rejected
deriving DecidableEq

/-- The error code the handler compares against. -/
def econnResetCode : List Char := ("ECONNRESET").toList

/-- The message fragment the handler searches for. -/
def forciblyClosedMsg : List Char := ("Socket forcibly closed").toList

/-- `needle` occurs contiguously in the haystack (JS `String.includes`). -/
def containsSub (needle : List Char) : List Char → Bool
  | [] => needle.isPrefixOf []
  | c :: rest => needle.isPrefixOf (c :: rest) || containsSub needle rest

/-- Embedding of the request error handler: with RST interruption enabled, an
`ECONNRESET` code or a message containing `Socket forcibly closed` resolves the
request as `{interrupted: true}`; every other error rejects. -/
def onRequestError (enableRSTInterruption : Bool) (code msg : List Char) : ReqOutcome :=
  if enableRSTInterruption && (code == econnResetCode || containsSub forciblyClosedMsg msg) then
    ReqOutcome.resolvedInterrupted
  else ReqOutcome.rejected

/-- How a `speakText` invocation can resolve. -/
inductive SpeakPath where
  | completedPath (status : ℕ)
  | interruptedPath
  | erroredPath
deriving DecidableEq

/-- Ordered observable steps of a `speakText` execution. -/
inductive SpStep where
  | setSpeaking (b : Bool)
  | fireInterrupt
  | sendPlaybackRequest
  | resolveOk (status : ℕ)
  | resolveInterrupted
  | raiseError
deriving DecidableEq

/-- Embedding of `speakText` (source lines 419–469) as its ordered trace of
`isSpeaking` assignments and request events: interrupt first when already
speaking (which itself clears `isSpeaking`), set `isSpeaking := true`, issue
the request, then on completion / interruption / error clear `isSpeaking`
before returning or re-throwing (the interruption path clears it twice: once
in `onInterrupt`, once after the response). -/
def speakTextTrace (speaking0 : Bool) (p : SpeakPath) : List SpStep :=
  (if speaking0 then [SpStep.setSpeaking false, SpStep.fireInterrupt] else [])
  ++ [SpStep.setSpeaking true, SpStep.sendPlaybackRequest]
  ++ (match p with
      | SpeakPath.completedPath st => [SpStep.resolveOk st, SpStep.setSpeaking false]
      | SpeakPath.interruptedPath =>
        [SpStep.setSpeaking false, SpStep.resolveInterrupted, SpStep.setSpeaking false]
      | SpeakPath.erroredPath => [SpStep.setSpeaking false, SpStep.raiseError])

/-- Final value of `isSpeaking` after executing a trace from a given value. -/
def runSpeaking (s : Bool) (tr : List SpStep) : Bool :=
  tr.foldl (fun cur st => match st with | SpStep.setSpeaking b => b | _ => cur) s

/-! ## Synchronous and asynchronous phases of `sendRSTPacket`

The `try` block constructs the socket, registers the error handler and
initiates the connect, then immediately returns `true`; connecting, writing
the request, and delivering the reset all happen later, in callbacks.  The raw
socket's `error` handler forwards to `onError`; the TLS socket's `error`
handler only logs; `resetAndDestroy()` is wrapped in `try`/`catch` reporting
to `onError` on throw and to `onSuccess` otherwise. -/

/-- Events of a `sendRSTPacket` call, synchronous and asynchronous. -/
inductive SyncEv where
  | socketCreated
  | errorHandlerRegistered
  | connectInitiated
  | onErrorCalled
  | connectionEstablished
  | requestFramed
  | resetDelivered
deriving DecidableEq

/-- The synchronous phase of `sendRSTPacket`: its return value and the events
that have happened by the time it returns. -/
def sendRSTPacketSync (socketCtorThrows : Bool) : Bool × List SyncEv :=
  if socketCtorThrows then (false, [SyncEv.onErrorCalled])
  else (true, [SyncEv.socketCreated, SyncEv.errorHandlerRegistered, SyncEv.connectInitiated])

/-- Asynchronous events that can later occur on the interrupt socket.  A write
failure on the TLS-wrapped stream surfaces as a TLS socket error. -/
inductive AsyncEvt where
  | rawSocketError
  | tlsSocketError
  | resetSucceeded
  | resetThrew
deriving DecidableEq

/-- Which caller-visible callback each asynchronous event reaches. -/
inductive CallbackKind where
  | onSuccessCb
  | onErrorCb
  | logOnly
deriving DecidableEq

/-- Handler wiring of `sendRSTPacket`, read off the source: raw socket errors
and reset throws reach `onError`, a delivered reset reaches `onSuccess`, TLS
socket errors are only logged. -/
def rstCallbackFor : AsyncEvt → CallbackKind
  | AsyncEvt.rawSocketError => CallbackKind.onErrorCb
  | AsyncEvt.tlsSocketError => CallbackKind.logOnly
  | AsyncEvt.resetSucceeded => CallbackKind.onSuccessCb
  | AsyncEvt.resetThrew => CallbackKind.onErrorCb

/-- Value of `isSpeaking` after an asynchronous event, for the callbacks
`RSTInterruptUtility.interruptSpeech` installs: both `onSuccess` and `onError`
assign `isSpeaking = false`; a log-only handler leaves it unchanged. -/
def speakingAfterRSTEvt (speaking : Bool) (e : AsyncEvt) : Bool :=
  match rstCallbackFor e with
  | CallbackKind.onSuccessCb => false
  | CallbackKind.onErrorCb => false
  | CallbackKind.logOnly => speaking

/-! ## Concrete inputs used by witnesses and counterexamples -/

/-- The default configured keyword. -/
def kwRobot : List Char := ("robot").toList

/-- A final transcript containing the keyword as a whole word. -/
def tPlease : List Char := ("please robot respond").toList

/-- Its part before the keyword. -/
def preP : List Char := ("please ").toList

/-- Its part after the keyword. -/
def postR : List Char := (" respond").toList

/-- The default backoff configuration (`RESTART_DELAY_MS=1000`,
`BASE_RECONNECT_DELAY_MS=1000`, `MAX_RECONNECT_DELAY_MS=30000`,
`MAX_RECONNECT_ATTEMPTS=10`). -/
def cfgDefault : BackoffConfig := ⟨1000, 1000, 30000, 10⟩

/-- A concrete workstation id. -/
def wsDemo : String := "demo-ws"

/-- An error code that is not a forced-reset signature. -/
def otherCode : List Char := ("ETIMEDOUT").toList

/-! # Theorems -/

/-! ## The regex test agrees with the spec's whole-word decomposition -/

theorem lowerList_length (t : List Char) : (lowerList t).length = t.length := by
  simp [lowerList]

theorem wholeWordMatch_of_hasKeywordCI {kw t : List Char} (hk : kw ≠ [])
    (h : hasKeywordCI kw t = true) : wholeWordMatch kw t := by
  rw [hasKeywordCI, List.any_eq_true] at h
  obtain ⟨i, hmem, hword⟩ := h
  rw [wordAt, Bool.and_eq_true, Bool.and_eq_true] at hword
  obtain ⟨⟨h1, h2⟩, h3⟩ := hword
  have e1 : ((lowerList t).drop i).take kw.length = lowerList kw := beq_iff_eq.mp h1
  have hmid : lowerList ((t.drop i).take kw.length) = lowerList kw := by
    simpa [lowerList, List.map_take, List.map_drop] using e1
  have hlen : ((t.drop i).take kw.length).length = kw.length := by
    have := congrArg List.length hmid
    simpa [lowerList] using this
  have hkpos : 0 < kw.length := List.length_pos.mpr hk
  have hle : i + kw.length ≤ t.length := by
    rw [List.length_take, List.length_drop] at hlen
    have h'' : kw.length ≤ t.length - i := min_eq_left_iff.mp hlen
    omega
  have hdec : t = t.take i ++ (t.drop i).take kw.length ++ t.drop (i + kw.length) := by
    rw [List.append_assoc, ← List.drop_drop, List.take_append_drop, List.take_append_drop]
  refine ⟨t.take i, (t.drop i).take kw.length, t.drop (i + kw.length), hdec, hmid, ?_, ?_⟩
  · rcases List.eq_nil_or_concat (t.take i) with hnil | ⟨L, b, hLb⟩
    · exact Or.inl hnil
    · right
      rw [hLb, List.concat_eq_append, List.getLast?_concat, Option.all_some] at h2
      exact ⟨b, L, by rw [hLb, List.concat_eq_append], by simpa using h2⟩
  · cases hp : t.drop (i + kw.length) with
    | nil => exact Or.inl rfl
    | cons c rest =>
      right
      rw [hp, List.head?_cons, Option.all_some] at h3
      exact ⟨c, rest, rfl, by simpa using h3⟩

theorem hasKeywordCI_of_wholeWordMatch {kw t : List Char}
    (h : wholeWordMatch kw t) : hasKeywordCI kw t = true := by
  obtain ⟨pre, mid, post, ht, hmid, hpre, hpost⟩ := h
  have hmidlen : mid.length = kw.length := by
    have := congrArg List.length hmid
    simpa [lowerList] using this
  rw [hasKeywordCI, List.any_eq_true]
  refine ⟨pre.length, ?_, ?_⟩
  · rw [List.mem_range]
    have hlt := congrArg List.length ht
    simp [List.length_append] at hlt
    omega
  · have c1 : ((lowerList t).drop pre.length).take kw.length = lowerList kw := by
      rw [ht]
      rw [show lowerList (pre ++ mid ++ post)
            = lowerList pre ++ (lowerList mid ++ lowerList post) by simp [lowerList]]
      rw [List.drop_left' (lowerList_length pre)]
      rw [hmid]
      exact List.take_left' (lowerList_length kw)
    have c2 : t.take pre.length = pre := by
      rw [ht, List.append_assoc]
      exact List.take_left' rfl
    have c3 : t.drop (pre.length + kw.length) = post := by
      rw [ht]
      exact List.drop_left' (by rw [List.length_append, hmidlen])
    rw [wordAt, Bool.and_eq_true, Bool.and_eq_true]
    refine ⟨⟨beq_iff_eq.mpr c1, ?_⟩, ?_⟩
    · rw [c2]
      rcases hpre with h0 | ⟨c, pre2, hpc, hcw⟩
      · rw [h0]; rfl
      · rw [hpc, List.getLast?_concat, Option.all_some, hcw]; rfl
    · rw [c3]
      rcases hpost with h0 | ⟨c, post2, hpc, hcw⟩
      · rw [h0]; rfl
      · rw [hpc, List.head?_cons, Option.all_some, hcw]; rfl

theorem ne_nil_of_wholeWordMatch {kw t : List Char} (hk : kw ≠ [])
    (h : wholeWordMatch kw t) : t ≠ [] := by
  obtain ⟨pre, mid, post, ht, hmid, -, -⟩ := h
  have hmidlen : mid.length = kw.length := by
    have := congrArg List.length hmid
    simpa [lowerList] using this
  have hkpos : 0 < kw.length := List.length_pos.mpr hk
  intro h0
  have hl := congrArg List.length ht
  rw [h0] at hl
  simp [List.length_append] at hl
  omega

/-! ## Behaviour of the final-transcript handler -/

theorem onFinalEvent_act_true {kw t : List Char} (s : KWState)
    (h : (!(t == []) && hasKeywordCI kw t) = true) :
    (onFinalEvent kw s t).2 = (if s.isSpeaking then Action.interrupt else Action.speak)
    ∧ (onFinalEvent kw s t).1.keywordDetected = true
    ∧ (onFinalEvent kw s t).1.isSpeaking = !s.isSpeaking := by
  simp only [Bool.and_eq_true, Bool.not_eq_true', beq_eq_false_iff_ne, ne_eq] at h
  cases hs : s.isSpeaking <;> simp [onFinalEvent, h.1, h.2, hs]

theorem onFinalEvent_act_false {kw t : List Char} (s : KWState)
    (h : (!(t == []) && hasKeywordCI kw t) = false) :
    (onFinalEvent kw s t).2 = Action.none := by
  simp only [Bool.and_eq_false_iff, Bool.not_eq_false', beq_iff_eq] at h
  rcases h with h | h <;> simp [onFinalEvent, h]

theorem dispatched_length_of_all_kw (kw : List Char) :
    ∀ (ts : List (List Char)) (s : KWState),
      (∀ u ∈ ts, (!(u == []) && hasKeywordCI kw u) = true) →
      (dispatched kw s ts).length = ts.length
  | [], _, _ => rfl
  | t :: ts, s, h => by
    have ht := h t (List.mem_cons_self t ts)
    have hact := (onFinalEvent_act_true s ht).1
    have hcons : (runFinals kw s (t :: ts)).2
        = (onFinalEvent kw s t).2 :: (runFinals kw (onFinalEvent kw s t).1 ts).2 := rfl
    have hne : decide ((onFinalEvent kw s t).2 ≠ Action.none) = true := by
      rw [hact]; cases s.isSpeaking <;> simp
    rw [dispatched, hcons, List.filter_cons, hne]
    simp only [if_true]
    rw [List.length_cons, List.length_cons]
    have ih := dispatched_length_of_all_kw kw ts (onFinalEvent kw s t).1
      (fun u hu => h u (List.mem_cons_of_mem t hu))
    rw [dispatched] at ih
    rw [ih]

/-! ## C1 -/

/-- C1 (counterexample): starting idle and not speaking, two consecutive final
transcripts both equal to the keyword `robot` (no intervening partial) make
the handler dispatch TWO actions — `speak` on the first and `interrupt` on the
second — and the second fires while the state is Armed
(`keywordDetected = true`), contradicting the claim that a consecutive armed
final emits no new action and that the whole run yields exactly one action. -/
theorem consecutive_keyword_single_action_cex :
    (runFinals kwRobot (initialKWState false) [kwRobot, kwRobot]).2
      = [Action.speak, Action.interrupt]
    ∧ (dispatched kwRobot (initialKWState false) [kwRobot, kwRobot]).length = 2
    ∧ (runFinals kwRobot (initialKWState false) [kwRobot]).1.keywordDetected = true
    ∧ (onFinalEvent kwRobot (runFinals kwRobot (initialKWState false) [kwRobot]).1 kwRobot).2
      ≠ Action.none := by
  refine ⟨?_, ?_, ?_, ?_⟩ <;> decide

/-- C1 (amended): on every final transcript containing the keyword the handler
dispatches a fresh action — `interrupt` when playback is in progress, `speak`
otherwise — even when already Armed (the `consecutiveKeywordDetection` flag
only affects console rendering), and it stays Armed afterwards; hence a run of
N consecutive keyword-bearing finals with no intervening partial dispatches
exactly N actions, not one. -/
theorem consecutive_keyword_finals_each_dispatch (kw : List Char) (s : KWState)
    (ts : List (List Char))
    (h : ∀ u ∈ ts, (!(u == []) && hasKeywordCI kw u) = true) :
    (dispatched kw s ts).length = ts.length
    ∧ ∀ t, (!(t == []) && hasKeywordCI kw t) = true →
        (onFinalEvent kw s t).2 = (if s.isSpeaking then Action.interrupt else Action.speak)
        ∧ (onFinalEvent kw s t).1.keywordDetected = true :=
  ⟨dispatched_length_of_all_kw kw ts s h,
   fun _ htk => ⟨(onFinalEvent_act_true s htk).1, (onFinalEvent_act_true s htk).2.1⟩⟩

/-- Witness for C1 (amended): three consecutive `robot` finals from an armed,
speaking state dispatch three actions. -/
theorem consecutive_keyword_finals_each_dispatch_witness :
    (dispatched kwRobot ⟨true, true, false, true⟩ [kwRobot, kwRobot, kwRobot]).length = 3 := by
  have h := consecutive_keyword_finals_each_dispatch kwRobot ⟨true, true, false, true⟩
    [kwRobot, kwRobot, kwRobot] (by decide)
  simpa using h.1

/-! ## C6 -/

/-- C6 (confirmed): for a nonempty keyword made of word characters (the regime
in which the `\b...\b` regex means whole-word matching), the final handler
dispatches an action iff the transcript contains the keyword as a
case-insensitive whole word; and when it does, the action is `interrupt`
exactly when playback is in progress and `speak` exactly when it is not — one
action, never both, never zero. -/
theorem keyword_action_iff_wholeword (kw t : List Char) (s : KWState)
    (hk : kw ≠ []) (hwc : kw.all isWordChar = true) :
    ((onFinalEvent kw s t).2 ≠ Action.none ↔ wholeWordMatch kw t)
    ∧ (wholeWordMatch kw t →
        ((onFinalEvent kw s t).2 = Action.interrupt ↔ s.isSpeaking = true)
        ∧ ((onFinalEvent kw s t).2 = Action.speak ↔ s.isSpeaking = false)) := by
  have hforward : wholeWordMatch kw t → (!(t == []) && hasKeywordCI kw t) = true := by
    intro hww
    rw [Bool.and_eq_true]
    refine ⟨?_, hasKeywordCI_of_wholeWordMatch hww⟩
    have hne := ne_nil_of_wholeWordMatch hk hww
    simp [hne]
  refine ⟨⟨?_, ?_⟩, ?_⟩
  · intro hne
    cases hcond : (!(t == []) && hasKeywordCI kw t) with
    | false => exact absurd (onFinalEvent_act_false s hcond) hne
    | true =>
      rw [Bool.and_eq_true] at hcond
      exact wholeWordMatch_of_hasKeywordCI hk hcond.2
  · intro hww
    rw [(onFinalEvent_act_true s (hforward hww)).1]
    cases s.isSpeaking <;> simp
  · intro hww
    rw [(onFinalEvent_act_true s (hforward hww)).1]
    cases hs : s.isSpeaking <;> simp

/-- Witness for C6: on the final transcript `please robot respond` while not
speaking, the handler dispatches `speak`. -/
theorem keyword_action_iff_wholeword_witness :
    kwRobot ≠ []
    ∧ (onFinalEvent kwRobot (initialKWState false) tPlease).2 = Action.speak := by
  have hww : wholeWordMatch kwRobot tPlease :=
    ⟨preP, kwRobot, postR, by decide, rfl,
     Or.inr ⟨' ', ("please").toList, by decide, by decide⟩,
     Or.inr ⟨' ', ("respond").toList, by decide, by decide⟩⟩
  have h := keyword_action_iff_wholeword kwRobot tPlease (initialKWState false)
    (by decide) (by decide)
  exact ⟨by decide, ((h.2 hww).2).mpr rfl⟩

/-! ## C7 -/

theorem onSpeechEnded_eq (T : ℕ) (s : ConnState) (elapsed : ℕ) :
    onSpeechEnded T s elapsed
      = (s, Action.none,
         if s.timeoutExceeded = true ∨ T ≤ elapsed then [SessEffect.closeAndReconnect]
         else []) := by
  rw [onSpeechEnded]
  by_cases h1 : s.timeoutExceeded = true <;> by_cases h2 : T ≤ elapsed <;> simp [h1, h2]

/-- C7 (confirmed): the idle-timeout timer firing only sets the
`timeoutExceeded` flag — it dispatches no action and tears nothing down; a
`speech_ended` event leaves the keyword state untouched, dispatches no action,
and closes the connection (scheduling a reconnect) exactly when the flag is
set or the connected time has already reached the timeout. -/
theorem idle_timeout_is_reactive (kw : List Char) (T : ℕ) (s : ConnState) (elapsed : ℕ) :
    onTimerFired s = ({ s with timeoutExceeded := true }, Action.none, [])
    ∧ (sessionStep kw T s elapsed SSEEvent.evSpeechEnded).1 = s
    ∧ (sessionStep kw T s elapsed SSEEvent.evSpeechEnded).2.1 = Action.none
    ∧ ((sessionStep kw T s elapsed SSEEvent.evSpeechEnded).2.2
        = [SessEffect.closeAndReconnect] ↔ (s.timeoutExceeded = true ∨ T ≤ elapsed))
    ∧ ((sessionStep kw T s elapsed SSEEvent.evSpeechEnded).2.2 = []
        ↔ ¬(s.timeoutExceeded = true ∨ T ≤ elapsed)) := by
  have hs : sessionStep kw T s elapsed SSEEvent.evSpeechEnded = onSpeechEnded T s elapsed := rfl
  refine ⟨rfl, ?_⟩
  rw [hs, onSpeechEnded_eq]
  by_cases h : s.timeoutExceeded = true ∨ T ≤ elapsed <;> simp [h]

/-! ## C3 -/

theorem reconnectCalc_true (cfg : BackoffConfig) (a c : ℕ) (j : ℚ) :
    reconnectCalc cfg a true c j =
      ⟨if 1 < (if 60000 < c then 0 else a) + 1 then
          min (cfg.baseDelay * (3 / 2) ^ ((if 60000 < c then 0 else a) + 1 - 1)) cfg.maxDelay
            + j
        else cfg.restartDelay,
       (if 60000 < c then 0 else a) + 1,
       decide (0 < cfg.maxAttempts) && decide (cfg.maxAttempts < (if 60000 < c then 0 else a) + 1)⟩ :=
  rfl

/-- C3 (confirmed): a non-error reconnect uses the flat restart delay and
resets the attempt counter to 0; an error reconnect first resets the counter
when the connection lasted more than 60 000 ms, then increments it, and the
delay is the flat restart delay when the incremented attempt is 1 and
`min(baseDelay * 1.5 ^ (attempt - 1), maxDelay)` plus the jitter when the
incremented attempt exceeds 1. -/
theorem backoff_policy_delay (cfg : BackoffConfig) (a c : ℕ) (j : ℚ)
    (hj0 : 0 ≤ j) (hj1 : j < 1000) :
    reconnectCalc cfg a false c j = ⟨cfg.restartDelay, 0, false⟩
    ∧ (reconnectCalc cfg a true c j).newAttempt = (if 60000 < c then 0 else a) + 1
    ∧ ((if 60000 < c then 0 else a) + 1 = 1 →
        (reconnectCalc cfg a true c j).delay = cfg.restartDelay)
    ∧ (1 < (if 60000 < c then 0 else a) + 1 →
        (reconnectCalc cfg a true c j).delay
          = min (cfg.baseDelay * (3 / 2) ^ ((if 60000 < c then 0 else a) + 1 - 1)) cfg.maxDelay
            + j) := by
  refine ⟨rfl, ?_, ?_, ?_⟩
  · rw [reconnectCalc_true]
  · intro h1
    rw [reconnectCalc_true]
    have : ¬(1 < (if 60000 < c then 0 else a) + 1) := by omega
    simp [this]
  · intro h1
    rw [reconnectCalc_true]
    simp [h1]

/-- Witness for C3: with the default configuration, an error reconnect from
attempt 1 after a short connection yields attempt 2 and delay
`min(1000 * 1.5, 30000) + 5 = 1505`; a non-error reconnect yields the flat
1000 ms delay and attempt 0. -/
theorem backoff_policy_delay_witness :
    (0:ℚ) ≤ 5 ∧ (5:ℚ) < 1000
    ∧ (reconnectCalc cfgDefault 1 true 0 5).delay = 1505
    ∧ (reconnectCalc cfgDefault 1 true 0 5).newAttempt = 2
    ∧ reconnectCalc cfgDefault 3 false 0 5 = ⟨1000, 0, false⟩ := by
  have h := backoff_policy_delay cfgDefault 1 0 (5:ℚ) (by norm_num) (by norm_num)
  have h' := backoff_policy_delay cfgDefault 3 0 (5:ℚ) (by norm_num) (by norm_num)
  have hif : (if 60000 < (0:ℕ) then 0 else 1) = 1 := by decide
  refine ⟨by norm_num, by norm_num, ?_, ?_, ?_⟩
  · have h4 := h.2.2.2 (by decide)
    rw [h4, hif]
    norm_num [cfgDefault]
  · rw [h.2.1, hif]
  · simpa [cfgDefault] using h'.1

/-! ## C4 -/

/-- C4 (confirmed): on an error reconnect, whenever `maxAttempts` is positive
and the incremented attempt count exceeds it, the fatal branch is taken and
the next step is `process.exit(1)` rather than scheduling a retry. -/
theorem reconnect_budget_exhausted_fatal (cfg : BackoffConfig) (a c : ℕ) (j : ℚ)
    (hmax : 0 < cfg.maxAttempts)
    (hexc : cfg.maxAttempts < (if 60000 < c then 0 else a) + 1) :
    (reconnectCalc cfg a true c j).fatal = true
    ∧ reconnectNext (reconnectCalc cfg a true c j) = ReconnectNext.exitProcess 1 := by
  have hf : (reconnectCalc cfg a true c j).fatal = true := by
    rw [reconnectCalc_true]
    simp [hmax, hexc]
  exact ⟨hf, by simp [reconnectNext, hf]⟩

/-- Witness for C4: with `maxAttempts = 10`, ten consecutive transport errors
leave the attempt counter at 10 without exiting, and the eleventh reconnect
hits the fatal exit. -/
theorem reconnect_budget_exhausted_fatal_witness :
    errorRun cfgDefault 10 0 = some 10
    ∧ 0 < cfgDefault.maxAttempts
    ∧ cfgDefault.maxAttempts < (if 60000 < (0:ℕ) then 0 else 10) + 1
    ∧ reconnectNext (reconnectCalc cfgDefault 10 true 0 0) = ReconnectNext.exitProcess 1
    ∧ errorRun cfgDefault 11 0 = none := by
  refine ⟨rfl, by decide, by decide, ?_, rfl⟩
  exact (reconnect_budget_exhausted_fatal cfgDefault 10 0 0 (by decide) (by decide)).2

/-! ## C2 -/

theorem le_foldr_max (x : ℕ) : ∀ (l : List ℕ), x ∈ l → x ≤ l.foldr max 0
  | [], h => absurd h (List.not_mem_nil x)
  | y :: l, h => by
    rcases List.mem_cons.mp h with rfl | h'
    · exact le_max_left _ _
    · exact le_trans (le_foldr_max x l h') (le_max_right _ _)

theorem freshSocket_not_mem (l : List ℕ) : freshSocket l ∉ l := by
  intro h
  have := le_foldr_max _ l h
  rw [freshSocket] at this
  omega

/-- C2 (counterexample): with the active playback request carried by socket 0
(the only existing connection), `RSTInterruptUtility.interruptSpeech` creates
a brand-new socket, writes a distinct hand-framed request on it, and its
`resetAndDestroy()` targets that new socket — not socket 0, the active
request's own connection handle — refuting the claim that the interrupt
resets the very socket carrying the playback request. -/
theorem interrupt_resets_active_socket_cex :
    (interruptSpeechRST [0] wsDemo).resetTarget ≠ 0
    ∧ (interruptSpeechRST [0] wsDemo).createdSocket ≠ 0
    ∧ (interruptSpeechRST [0] wsDemo).requestWritten = true
    ∧ (interruptSpeechRST [0] wsDemo).resetTarget
      = (interruptSpeechRST [0] wsDemo).createdSocket := by
  refine ⟨?_, ?_, ?_, ?_⟩ <;> decide

/-- C2 (amended): the interrupt opens a fresh connection (a socket held by no
existing connection, in particular not the one carrying the active playback
request), writes a distinct `POST .../audio/speak` request on it, and forcibly
resets that fresh socket; the active request's own socket is never the reset
target — it observes the interruption only as a connection reset raised
against it remotely. -/
theorem interrupt_opens_fresh_connection (existing : List ℕ) (active : ℕ) (wsId : String)
    (h : active ∈ existing) :
    (interruptSpeechRST existing wsId).createdSocket ∉ existing
    ∧ (interruptSpeechRST existing wsId).resetTarget
        = (interruptSpeechRST existing wsId).createdSocket
    ∧ (interruptSpeechRST existing wsId).resetTarget ≠ active
    ∧ (interruptSpeechRST existing wsId).requestWritten = true
    ∧ (interruptSpeechRST existing wsId).path = speakPathOf wsId
    ∧ (interruptSpeechRST existing wsId).host = apiHost := by
  refine ⟨freshSocket_not_mem existing, rfl, ?_, rfl, rfl, rfl⟩
  intro he
  apply freshSocket_not_mem existing
  have hf : freshSocket existing = active := he
  rw [hf]
  exact h

/-- Witness for C2 (amended): with socket 3 carrying the active request, the
interrupt resets a different, fresh socket. -/
theorem interrupt_opens_fresh_connection_witness :
    3 ∈ [3]
    ∧ (interruptSpeechRST [3] wsDemo).resetTarget ≠ 3
    ∧ (interruptSpeechRST [3] wsDemo).createdSocket ∉ [3] := by
  have h := interrupt_opens_fresh_connection [3] 3 wsDemo (by simp)
  exact ⟨by simp, h.2.2.1, h.1⟩

/-! ## C5 -/

/-- C5 (confirmed): on an interruptible playback request, a transport error
whose code is `ECONNRESET` or whose message contains `Socket forcibly closed`
resolves the request as `{interrupted: true}`; every other transport error
rejects it; and on both the interrupted and the error path of `speakText` the
speaking state ends up `false`. -/
theorem playback_error_classification (code msg : List Char) (s0 : Bool) :
    (onRequestError true code msg = ReqOutcome.resolvedInterrupted
      ↔ (code = econnResetCode ∨ containsSub forciblyClosedMsg msg = true))
    ∧ (onRequestError true code msg = ReqOutcome.rejected
      ↔ ¬(code = econnResetCode ∨ containsSub forciblyClosedMsg msg = true))
    ∧ runSpeaking s0 (speakTextTrace s0 SpeakPath.interruptedPath) = false
    ∧ runSpeaking s0 (speakTextTrace s0 SpeakPath.erroredPath) = false := by
  refine ⟨?_, ?_, ?_, ?_⟩
  · by_cases h1 : code = econnResetCode <;>
      by_cases h2 : containsSub forciblyClosedMsg msg = true <;>
        simp [onRequestError, beq_iff_eq, h1, h2]
  · by_cases h1 : code = econnResetCode <;>
      by_cases h2 : containsSub forciblyClosedMsg msg = true <;>
        simp [onRequestError, beq_iff_eq, h1, h2]
  · cases s0 <;> rfl
  · cases s0 <;> rfl

/-- Witness for C5: an `ECONNRESET` resolves as interrupted, an `ETIMEDOUT`
rejects, and the interrupted path of `speakText` ends not speaking. -/
theorem playback_error_classification_witness :
    onRequestError true econnResetCode [] = ReqOutcome.resolvedInterrupted
    ∧ onRequestError true otherCode [] = ReqOutcome.rejected
    ∧ runSpeaking true (speakTextTrace true SpeakPath.interruptedPath) = false := by
  have h := playback_error_classification econnResetCode [] true
  have h2 := playback_error_classification otherCode [] true
  refine ⟨h.1.mpr (Or.inl rfl), h2.2.1.mpr ?_, h.2.2.1⟩
  rintro (hx | hx)
  · exact absurd hx (by decide)
  · exact absurd hx (by decide)

/-! ## C8 -/

/-- C8 (confirmed): `interruptSpeech()` called while speaking synchronously
clears the speaking state as its first step — before the RST is even sent,
let alone confirmed — and returns `true`; called while not speaking it
returns `false` and sends nothing (its only step re-assigns the already-false
flag, changing no state); and a repeated call after any call finds the flag
cleared, so it returns `false` and emits no network effect that could touch a
subsequently created request. -/
theorem interrupt_idempotent_optimistic (s0 : Bool) :
    ((interruptSpeechCall true).1 = true
      ∧ (interruptSpeechCall true).2.1 = false
      ∧ (interruptSpeechCall true).2.2
          = [IEffect.setSpeakingFalse, IEffect.sendRSTNow, IEffect.scheduleBackupRST])
    ∧ interruptSpeechCall false = (false, false, [IEffect.setSpeakingFalse])
    ∧ interruptSpeechCall (interruptSpeechCall s0).2.1
        = (false, false, [IEffect.setSpeakingFalse])
    ∧ IEffect.sendRSTNow ∉ (interruptSpeechCall (interruptSpeechCall s0).2.1).2.2
    ∧ IEffect.scheduleBackupRST ∉ (interruptSpeechCall (interruptSpeechCall s0).2.1).2.2 := by
  cases s0 <;> exact ⟨⟨rfl, rfl, rfl⟩, rfl, rfl, by decide, by decide⟩

/-! ## C9 -/

/-- C9 (confirmed): every resolution path of `speakText` — normal completion
with any status, interruption, or an error (which is re-thrown) — leaves the
speaking state `false`, as does `interruptSpeech()` itself: no path ends stuck
in Speaking. -/
theorem speaking_clears_on_every_path (s0 : Bool) (p : SpeakPath) :
    runSpeaking s0 (speakTextTrace s0 p) = false
    ∧ (interruptSpeechCall s0).2.1 = false := by
  refine ⟨?_, by cases s0 <;> rfl⟩
  cases p <;> cases s0 <;> rfl

/-! ## C10 -/

/-- C10 (counterexample): an error raised on the TLS-wrapped socket reaches
only the log-only listener — neither `onSuccess` nor `onError` — and leaves
the speaking state untouched (here: still `true`), refuting the claim that
every asynchronous failure, TLS included, is reported through a callback that
sets the speaking state to false. -/
theorem tls_error_no_callback_cex :
    rstCallbackFor AsyncEvt.tlsSocketError = CallbackKind.logOnly
    ∧ speakingAfterRSTEvt true AsyncEvt.tlsSocketError = true
    ∧ speakingAfterRSTEvt true AsyncEvt.tlsSocketError ≠ false :=
  ⟨rfl, rfl, by decide⟩

/-- C10 (amended): `sendRSTPacket` returns `true` whenever constructing the
socket does not throw synchronously — before any connection is established,
any request framed, or any reset delivered — and `false` only on a synchronous
throw; raw-socket errors and `resetAndDestroy()` throws are reported through
`onError`, a delivered reset through `onSuccess`, and each of those callbacks
sets the speaking state to false; TLS-socket errors (including write failures
on the encrypted stream) are consumed by a log-only listener, invoke neither
callback, and leave the speaking state unchanged. -/
theorem rst_return_value_and_callbacks (ctorThrows s : Bool) :
    (sendRSTPacketSync false).1 = true
    ∧ (sendRSTPacketSync ctorThrows).1 = !ctorThrows
    ∧ SyncEv.connectionEstablished ∉ (sendRSTPacketSync ctorThrows).2
    ∧ SyncEv.requestFramed ∉ (sendRSTPacketSync ctorThrows).2
    ∧ SyncEv.resetDelivered ∉ (sendRSTPacketSync ctorThrows).2
    ∧ rstCallbackFor AsyncEvt.rawSocketError = CallbackKind.onErrorCb
    ∧ rstCallbackFor AsyncEvt.resetThrew = CallbackKind.onErrorCb
    ∧ rstCallbackFor AsyncEvt.resetSucceeded = CallbackKind.onSuccessCb
    ∧ speakingAfterRSTEvt s AsyncEvt.rawSocketError = false
    ∧ speakingAfterRSTEvt s AsyncEvt.resetThrew = false
    ∧ speakingAfterRSTEvt s AsyncEvt.resetSucceeded = false
    ∧ rstCallbackFor AsyncEvt.tlsSocketError = CallbackKind.logOnly
    ∧ speakingAfterRSTEvt s AsyncEvt.tlsSocketError = s := by
  cases ctorThrows <;> cases s <;>
    exact ⟨rfl, rfl, by decide, by decide, by decide, rfl, rfl, rfl, rfl, rfl, rfl, rfl, rfl⟩

end RSTT
